import Mathlib

/-!
Verification of the SMS dispatch service in main.go: the single send
operation, the bounded concurrency bulk dispatcher sendBulkSMS, and the
HTTP handlers around them. The dispatcher is embedded as a small step
relation over the states of its worker goroutines; the handlers are
embedded over a small JSON value model mirroring the encoding/json
behavior the code relies on.
-/

namespace SmsMasivo

/-- Twilio configuration, mirroring TwilioConfig in main.go. -/
structure TwilioConfig where
  accountSID : String
  authToken : String
  fromPhone : String
  deriving DecidableEq, Repr

/-- Request body of the bulk endpoint, mirroring SMSRequest in main.go:
the recipient list and the message shared by all recipients. -/
structure SMSRequest where
  «to» : List String
  message : String
  deriving DecidableEq, Repr

/-- Response body of the bulk endpoint, mirroring SMSResponse in main.go. -/
structure SMSResponse where
  sent : List String
  failed : List String
  total : Nat
  deriving DecidableEq, Repr

/-- The external provider collaborator: one outbound call per message,
taking the configured from number, the destination and the body, and
returning success or the rendering of an error. It models the call
twilioClient.Api.CreateMessage in main.go. -/
def Provider : Type := String → String → String → Except String Unit

/-- Embeds sendSMS from main.go. The first component is the returned
error value; the second counts the provider invocations the call makes. -/
def sendSMS (cfg : TwilioConfig) (client : Provider) («to» message : String) :
    Except String Unit × Nat :=
  match client cfg.fromPhone «to» message with
  | Except.ok _ => (Except.ok (), 1)
  | Except.error err => (Except.error ("error al enviar SMS: " ++ err), 1)

/-- Minimal JSON value model for the request bodies the handlers decode. -/
inductive Json where
  | null
  | bool (b : Bool)
  | num (n : Int)
  | str (s : String)
  | arr (elems : List Json)
  | obj (fields : List (String × Json))

/-- Decoding one JSON array element into a Go string slot, following
encoding/json: a JSON string yields the string, null leaves the zero
value, anything else is a type error. -/
def decodeStringElem : Json → Option String
  | Json.str s => some s
  | Json.null => some ""
  | _ => none

/-- Decoding a JSON array into a Go string slice. -/
def decodeStringList (elems : List Json) : Option (List String) :=
  elems.mapM decodeStringElem

/-- ASCII case folding with which encoding/json matches object keys to
struct field names: an object key is accepted for a field when it equals
the field name up to letter case. -/
def keyMatches (key name : String) : Bool :=
  key.data.map Char.toLower == name.data.map Char.toLower

/-- Applies one object field to a partially decoded SMSRequest, following
encoding/json semantics for the struct tags in main.go: keys are matched
case insensitively, null leaves the field untouched, a wrongly typed
value is an error, unknown keys are ignored, a later duplicate key
overwrites. -/
def decodeSMSRequestField (req : SMSRequest) (field : String × Json) : Option SMSRequest :=
  if keyMatches field.1 "to" then
    match field.2 with
    | Json.null => some req
    | Json.arr elems => (decodeStringList elems).map fun l => { req with «to» := l }
    | _ => none
  else if keyMatches field.1 "message" then
    match field.2 with
    | Json.null => some req
    | Json.str s => some { req with message := s }
    | _ => none
  else
    some req

/-- Embeds the json Decode step of sendBulkSMSHandler: an object fills
the struct field by field starting from the zero value, a top level null
is a no-op on the zero value, and any other top level value is a type
error. -/
def decodeSMSRequest : Json → Option SMSRequest
  | Json.obj fields => fields.foldlM decodeSMSRequestField { «to» := [], message := "" }
  | Json.null => some { «to» := [], message := "" }
  | _ => none

/-- Request body of the single send endpoint, the anonymous struct in
sendSMSHandler. -/
structure SingleSMSRequest where
  «to» : String
  message : String
  deriving DecidableEq, Repr

/-- One object field applied to a partially decoded single send request,
with the same case insensitive key matching as the bulk decoder. -/
def decodeSingleSMSRequestField (req : SingleSMSRequest)
    (field : String × Json) : Option SingleSMSRequest :=
  if keyMatches field.1 "to" then
    match field.2 with
    | Json.null => some req
    | Json.str s => some { req with «to» := s }
    | _ => none
  else if keyMatches field.1 "message" then
    match field.2 with
    | Json.null => some req
    | Json.str s => some { req with message := s }
    | _ => none
  else
    some req

/-- Embeds the json Decode step of sendSMSHandler. -/
def decodeSingleSMSRequest : Json → Option SingleSMSRequest
  | Json.obj fields => fields.foldlM decodeSingleSMSRequestField { «to» := "", message := "" }
  | Json.null => some { «to» := "", message := "" }
  | _ => none

/-- Phase of one worker goroutine of sendBulkSMS: not yet holding a
semaphore slot, holding a slot while its provider call is in flight, or
finished with its outcome recorded and its slot released. -/
inductive WorkerPhase where
  | notStarted
  | inFlight
  | done
  deriving DecidableEq, Repr

/-- Capacity of the semaphore channel created in sendBulkSMS. -/
def semaphoreCapacity : Nat := 10

/-- State of one bulk dispatch over n recipients: the phase of each
worker, the two result lists guarded by the mutex, and the number of
provider calls made so far. -/
structure BulkState (n : Nat) where
  phase : Fin n → WorkerPhase
  sent : List String
  failed : List String
  calls : Nat

/-- Number of workers currently holding a semaphore slot. -/
def inFlightCount {n : Nat} (s : BulkState n) : Nat :=
  (Finset.univ.filter fun i => s.phase i = WorkerPhase.inFlight).card

/-- Number of workers that have completed and recorded their outcome. -/
def doneCount {n : Nat} (s : BulkState n) : Nat :=
  (Finset.univ.filter fun i => s.phase i = WorkerPhase.done).card

/-- The state of sendBulkSMS right after initializing the response
struct: no worker has started, both lists are empty, Total is already
fixed to the recipient count. -/
def initState (n : Nat) : BulkState n :=
  { phase := fun _ => WorkerPhase.notStarted, sent := [], failed := [], calls := 0 }

/-- State after worker i acquires a semaphore slot. -/
def acquireState {n : Nat} (s : BulkState n) (i : Fin n) : BulkState n :=
  { s with phase := Function.update s.phase i WorkerPhase.inFlight }

/-- State after worker i completes its provider call: it records its
recipient into sent or failed under the mutex, according to the outcome
of that call, and releases its semaphore slot unconditionally. -/
def finishState (recipients : List String) (outcome : Nat → Bool)
    (s : BulkState recipients.length) (i : Fin recipients.length) :
    BulkState recipients.length :=
  { phase := Function.update s.phase i WorkerPhase.done
    sent := if outcome i.val then s.sent ++ [recipients.get i] else s.sent
    failed := if outcome i.val then s.failed else s.failed ++ [recipients.get i]
    calls := s.calls + 1 }

/-- One scheduler step of sendBulkSMS: some worker either acquires a
semaphore slot, which is possible only while fewer than
semaphoreCapacity slots are held, or completes its provider call,
records its outcome and releases its slot. The outcome argument fixes,
per position in the recipient list, whether the provider call for that
occurrence succeeds. -/
inductive BulkStep (recipients : List String) (outcome : Nat → Bool) :
    BulkState recipients.length → BulkState recipients.length → Prop where
  | acquire (s : BulkState recipients.length) (i : Fin recipients.length) :
      s.phase i = WorkerPhase.notStarted →
      inFlightCount s < semaphoreCapacity →
      BulkStep recipients outcome s (acquireState s i)
  | finish (s : BulkState recipients.length) (i : Fin recipients.length) :
      s.phase i = WorkerPhase.inFlight →
      BulkStep recipients outcome s (finishState recipients outcome s i)

/-- States a run of sendBulkSMS can pass through. -/
abbrev Reachable (recipients : List String) (outcome : Nat → Bool)
    (s : BulkState recipients.length) : Prop :=
  Relation.ReflTransGen (BulkStep recipients outcome) (initState recipients.length) s

/-- Every worker has completed, so wg.Wait has returned. -/
def Finished {n : Nat} (s : BulkState n) : Prop :=
  ∀ i : Fin n, s.phase i = WorkerPhase.done

/-- The SMSResponse sendBulkSMS returns from a completed dispatch state:
Total was fixed to the recipient count at initialization. -/
def mkResponse (recipients : List String) (s : BulkState recipients.length) : SMSResponse :=
  { sent := s.sent, failed := s.failed, total := recipients.length }

/-- Embeds sendBulkSMS from main.go as a relation between its input and
its possible return values: a response is returned exactly when some
interleaving of the workers runs to completion, after wg.Wait, so an
incomplete state is never observable as a return value. -/
def SendBulkSMS (recipients : List String) (outcome : Nat → Bool)
    (resp : SMSResponse) : Prop :=
  ∃ s, Reachable recipients outcome s ∧ Finished s ∧ resp = mkResponse recipients s

/-- HTTP methods the handlers distinguish. -/
inductive Method where
  | get
  | post
  | put
  | delete
  deriving DecidableEq, Repr

/-- Response bodies the two send handlers write. -/
inductive ResponseBody where
  | error (text : String)
  | singleOk («to» : String)
  | bulk (resp : SMSResponse)
  deriving DecidableEq, Repr

/-- An HTTP response: status code and body. -/
structure HttpResponse where
  status : Nat
  body : ResponseBody
  deriving DecidableEq, Repr

/-- Embeds sendSMSHandler from main.go. The body argument is the parsed
request body, none when the body is not syntactically valid JSON. The
second component counts provider calls made while serving the request. -/
def sendSMSHandler (cfg : TwilioConfig) (client : Provider)
    (method : Method) (body : Option Json) : HttpResponse × Nat :=
  if method ≠ Method.post then
    ({ status := 405, body := ResponseBody.error "Método no permitido" }, 0)
  else
    match body.bind decodeSingleSMSRequest with
    | none => ({ status := 400, body := ResponseBody.error "Request inválido" }, 0)
    | some req =>
      match sendSMS cfg client req.«to» req.message with
      | (Except.error err, c) =>
          ({ status := 500, body := ResponseBody.error ("Error al enviar SMS: " ++ err) }, c)
      | (Except.ok _, c) =>
          ({ status := 200, body := ResponseBody.singleOk req.«to» }, c)

/-- Embeds sendBulkSMSHandler from main.go as a relation: method routing
and body decoding are deterministic, and a well formed POST returns 200
with whatever completed dispatch sendBulkSMS produced. The second
component of the result counts provider calls made while serving the
request. -/
inductive SendBulkSMSHandler (outcome : Nat → Bool) (method : Method)
    (body : Option Json) : HttpResponse × Nat → Prop where
  | methodNotAllowed :
      method ≠ Method.post →
      SendBulkSMSHandler outcome method body
        ({ status := 405, body := ResponseBody.error "Método no permitido" }, 0)
  | badRequest :
      method = Method.post →
      body.bind decodeSMSRequest = none →
      SendBulkSMSHandler outcome method body
        ({ status := 400, body := ResponseBody.error "Request inválido" }, 0)
  | ok (req : SMSRequest) (s : BulkState req.«to».length) :
      method = Method.post →
      body.bind decodeSMSRequest = some req →
      Reachable req.«to» outcome s →
      Finished s →
      SendBulkSMSHandler outcome method body
        ({ status := 200, body := ResponseBody.bulk (mkResponse req.«to» s) }, s.calls)

/-- Multiset of recipients that must appear in sent according to the
worker phases: one occurrence per completed worker whose provider call
succeeded. -/
def sentSpec (recipients : List String) (outcome : Nat → Bool)
    (s : BulkState recipients.length) : Multiset String :=
  (Finset.univ.filter fun i => s.phase i = WorkerPhase.done ∧ outcome i.val = true).val.map
    recipients.get

/-- Multiset of recipients that must appear in failed according to the
worker phases. -/
def failedSpec (recipients : List String) (outcome : Nat → Bool)
    (s : BulkState recipients.length) : Multiset String :=
  (Finset.univ.filter fun i => s.phase i = WorkerPhase.done ∧ outcome i.val = false).val.map
    recipients.get

/-- Invariant maintained by every step of the dispatcher. -/
def Inv (recipients : List String) (outcome : Nat → Bool)
    (s : BulkState recipients.length) : Prop :=
  (s.sent : Multiset String) = sentSpec recipients outcome s ∧
  (s.failed : Multiset String) = failedSpec recipients outcome s ∧
  inFlightCount s ≤ semaphoreCapacity ∧
  s.calls = doneCount s

lemma filter_update_not_target {n : Nat} (phase : Fin n → WorkerPhase) (i : Fin n)
    (a b : WorkerPhase) (q : Fin n → Prop) [DecidablePred q]
    (hne : b ≠ a) (hcur : phase i ≠ a) :
    (Finset.univ.filter fun j => Function.update phase i b j = a ∧ q j) =
      (Finset.univ.filter fun j => phase j = a ∧ q j) := by
  ext j
  by_cases hj : j = i
  · subst hj
    simp [Function.update_same, hne, hcur]
  · simp [Function.update_noteq hj]

lemma filter_update_target {n : Nat} (phase : Fin n → WorkerPhase) (i : Fin n)
    (a : WorkerPhase) (q : Fin n → Prop) [DecidablePred q] (hq : q i) :
    (Finset.univ.filter fun j => Function.update phase i a j = a ∧ q j) =
      insert i (Finset.univ.filter fun j => phase j = a ∧ q j) := by
  ext j
  by_cases hj : j = i
  · subst hj
    simp [Function.update_same, hq]
  · simp [Function.update_noteq hj, hj]

lemma filter_update_target_not_q {n : Nat} (phase : Fin n → WorkerPhase) (i : Fin n)
    (a : WorkerPhase) (q : Fin n → Prop) [DecidablePred q]
    (hcur : phase i ≠ a) (hq : ¬ q i) :
    (Finset.univ.filter fun j => Function.update phase i a j = a ∧ q j) =
      (Finset.univ.filter fun j => phase j = a ∧ q j) := by
  ext j
  by_cases hj : j = i
  · subst hj
    simp [Function.update_same, hq, hcur]
  · simp [Function.update_noteq hj]

lemma filter_update_eq_insert {n : Nat} (phase : Fin n → WorkerPhase) (i : Fin n)
    (a : WorkerPhase) :
    (Finset.univ.filter fun j => Function.update phase i a j = a) =
      insert i (Finset.univ.filter fun j => phase j = a) := by
  ext j
  by_cases hj : j = i
  · subst hj
    simp [Function.update_same]
  · simp [Function.update_noteq hj, hj]

lemma filter_update_eq_erase {n : Nat} (phase : Fin n → WorkerPhase) (i : Fin n)
    (a b : WorkerPhase) (hne : b ≠ a) :
    (Finset.univ.filter fun j => Function.update phase i b j = a) =
      (Finset.univ.filter fun j => phase j = a).erase i := by
  ext j
  by_cases hj : j = i
  · subst hj
    simp [Function.update_same, hne]
  · simp [Function.update_noteq hj, hj]

lemma coe_append_singleton (l : List String) (x : String) :
    ((l ++ [x] : List String) : Multiset String) = x ::ₘ (l : Multiset String) :=
  Multiset.coe_eq_coe.mpr (List.perm_append_singleton x l)

lemma inv_init (recipients : List String) (outcome : Nat → Bool) :
    Inv recipients outcome (initState recipients.length) := by
  have hdone : ∀ q : Fin recipients.length → Prop, ∀ inst : DecidablePred q,
      (Finset.univ.filter fun j =>
        (initState recipients.length).phase j = WorkerPhase.done ∧ q j) = ∅ := by
    intro q inst
    apply Finset.filter_false_of_mem
    intro j _
    simp [initState]
  refine ⟨?_, ?_, ?_, ?_⟩
  · simp [initState, sentSpec, hdone]
  · simp [initState, failedSpec, hdone]
  · have : (Finset.univ.filter fun j =>
        (initState recipients.length).phase j = WorkerPhase.inFlight) = ∅ := by
      apply Finset.filter_false_of_mem
      intro j _
      simp [initState]
    simp [inFlightCount, this, semaphoreCapacity]
  · have : (Finset.univ.filter fun j =>
        (initState recipients.length).phase j = WorkerPhase.done) = ∅ := by
      apply Finset.filter_false_of_mem
      intro j _
      simp [initState]
    simp [initState, doneCount, this]

lemma inv_step (recipients : List String) (outcome : Nat → Bool)
    (s t : BulkState recipients.length) (hstep : BulkStep recipients outcome s t)
    (hinv : Inv recipients outcome s) : Inv recipients outcome t := by
  obtain ⟨hsent, hfailed, hcap, hcalls⟩ := hinv
  cases hstep with
  | acquire i hphase hcount =>
    refine ⟨?_, ?_, ?_, ?_⟩
    · rw [show (acquireState s i).sent = s.sent from rfl, hsent]
      unfold sentSpec
      rw [show (acquireState s i).phase = Function.update s.phase i WorkerPhase.inFlight
          from rfl]
      rw [filter_update_not_target s.phase i WorkerPhase.done WorkerPhase.inFlight _
          (by simp) (by rw [hphase]; simp)]
    · rw [show (acquireState s i).failed = s.failed from rfl, hfailed]
      unfold failedSpec
      rw [show (acquireState s i).phase = Function.update s.phase i WorkerPhase.inFlight
          from rfl]
      rw [filter_update_not_target s.phase i WorkerPhase.done WorkerPhase.inFlight _
          (by simp) (by rw [hphase]; simp)]
    · unfold inFlightCount at hcount ⊢
      rw [show (acquireState s i).phase = Function.update s.phase i WorkerPhase.inFlight
          from rfl]
      rw [filter_update_eq_insert]
      calc (insert i (Finset.univ.filter fun j => s.phase j = WorkerPhase.inFlight)).card
          ≤ (Finset.univ.filter fun j => s.phase j = WorkerPhase.inFlight).card + 1 :=
            Finset.card_insert_le _ _
        _ ≤ semaphoreCapacity := hcount
    · rw [show (acquireState s i).calls = s.calls from rfl, hcalls]
      unfold doneCount
      rw [show (acquireState s i).phase = Function.update s.phase i WorkerPhase.inFlight
          from rfl]
      rw [filter_update_eq_erase s.phase i WorkerPhase.done WorkerPhase.inFlight (by simp)]
      rw [Finset.erase_eq_of_not_mem]
      simp [hphase]
  | finish i hphase =>
    have hnotdone : s.phase i ≠ WorkerPhase.done := by rw [hphase]; simp
    have hphaseEq : (finishState recipients outcome s i).phase =
        Function.update s.phase i WorkerPhase.done := rfl
    refine ⟨?_, ?_, ?_, ?_⟩
    · unfold sentSpec
      rw [hphaseEq]
      by_cases hout : outcome i.val
      · rw [show (finishState recipients outcome s i).sent = s.sent ++ [recipients.get i]
            from by simp [finishState, hout]]
        rw [filter_update_target s.phase i WorkerPhase.done _ (by simp [hout])]
        have hmem : i ∉ Finset.univ.filter fun j =>
            s.phase j = WorkerPhase.done ∧ outcome j.val = true := by
          simp [hnotdone]
        rw [Finset.insert_val_of_not_mem hmem, Multiset.map_cons]
        rw [coe_append_singleton, hsent]
        rfl
      · rw [show (finishState recipients outcome s i).sent = s.sent
            from by simp [finishState, hout]]
        rw [filter_update_target_not_q s.phase i WorkerPhase.done _ hnotdone
          (by simpa using hout)]
        exact hsent
    · unfold failedSpec
      rw [hphaseEq]
      by_cases hout : outcome i.val
      · rw [show (finishState recipients outcome s i).failed = s.failed
            from by simp [finishState, hout]]
        rw [filter_update_target_not_q s.phase i WorkerPhase.done _ hnotdone
          (by simp [hout])]
        exact hfailed
      · rw [show (finishState recipients outcome s i).failed = s.failed ++ [recipients.get i]
            from by simp [finishState, hout]]
        rw [filter_update_target s.phase i WorkerPhase.done _ (by simpa using hout)]
        have hmem : i ∉ Finset.univ.filter fun j =>
            s.phase j = WorkerPhase.done ∧ outcome j.val = false := by
          simp [hnotdone]
        rw [Finset.insert_val_of_not_mem hmem, Multiset.map_cons]
        rw [coe_append_singleton, hfailed]
        rfl
    · unfold inFlightCount at hcap ⊢
      rw [hphaseEq]
      rw [filter_update_eq_erase s.phase i WorkerPhase.inFlight WorkerPhase.done (by simp)]
      exact le_trans (Finset.card_erase_le) hcap
    · rw [show (finishState recipients outcome s i).calls = s.calls + 1 from rfl, hcalls]
      unfold doneCount
      rw [hphaseEq]
      rw [filter_update_eq_insert]
      rw [Finset.card_insert_of_not_mem (by simp [hnotdone])]

lemma reachable_inv (recipients : List String) (outcome : Nat → Bool)
    (s : BulkState recipients.length) (h : Reachable recipients outcome s) :
    Inv recipients outcome s := by
  induction h with
  | refl => exact inv_init recipients outcome
  | tail _ hstep ih => exact inv_step recipients outcome _ _ hstep ih

lemma finished_sent_multiset (recipients : List String) (outcome : Nat → Bool)
    (s : BulkState recipients.length) (h : Reachable recipients outcome s)
    (hf : Finished s) :
    (s.sent : Multiset String) =
      (Finset.univ.filter fun i : Fin recipients.length => outcome i.val = true).val.map
        recipients.get := by
  rw [(reachable_inv recipients outcome s h).1]
  unfold sentSpec
  congr 1
  congr 1
  apply Finset.filter_congr
  intro i _
  simp [hf i]

lemma finished_failed_multiset (recipients : List String) (outcome : Nat → Bool)
    (s : BulkState recipients.length) (h : Reachable recipients outcome s)
    (hf : Finished s) :
    (s.failed : Multiset String) =
      (Finset.univ.filter fun i : Fin recipients.length => outcome i.val = false).val.map
        recipients.get := by
  rw [(reachable_inv recipients outcome s h).2.1]
  unfold failedSpec
  congr 1
  congr 1
  apply Finset.filter_congr
  intro i _
  simp [hf i]

lemma univ_val_map_get (recipients : List String) :
    ((Finset.univ : Finset (Fin recipients.length)).val.map recipients.get) =
      (recipients : Multiset String) := by
  rw [Fin.univ_def]
  show Multiset.map recipients.get ((List.finRange recipients.length : List _) : Multiset _) =
    (recipients : Multiset String)
  rw [Multiset.map_coe, List.finRange_map_get]

lemma finished_partition (recipients : List String) (outcome : Nat → Bool)
    (s : BulkState recipients.length) (h : Reachable recipients outcome s)
    (hf : Finished s) :
    (s.sent : Multiset String) + (s.failed : Multiset String) =
      (recipients : Multiset String) := by
  rw [finished_sent_multiset recipients outcome s h hf,
    finished_failed_multiset recipients outcome s h hf]
  rw [← Multiset.map_add]
  rw [Finset.filter_val, Finset.filter_val]
  have hneg : (Multiset.filter (fun i : Fin recipients.length => outcome i.val = false)
      (Finset.univ : Finset (Fin recipients.length)).val) =
      (Multiset.filter (fun i : Fin recipients.length => ¬ outcome i.val = true)
        (Finset.univ : Finset (Fin recipients.length)).val) := by
    apply Multiset.filter_congr
    intro i _
    simp
  rw [hneg, Multiset.filter_add_not]
  exact univ_val_map_get recipients

lemma finished_count (recipients : List String) (outcome : Nat → Bool)
    (s : BulkState recipients.length) (h : Reachable recipients outcome s)
    (hf : Finished s) :
    s.sent.length + s.failed.length = recipients.length := by
  have := congrArg Multiset.card (finished_partition recipients outcome s h hf)
  simpa using this

lemma finished_calls (recipients : List String) (outcome : Nat → Bool)
    (s : BulkState recipients.length) (h : Reachable recipients outcome s)
    (hf : Finished s) : s.calls = recipients.length := by
  rw [(reachable_inv recipients outcome s h).2.2.2]
  unfold doneCount
  rw [Finset.filter_true_of_mem fun i _ => hf i]
  simp

lemma reachable_nil (outcome : Nat → Bool) (s : BulkState ([] : List String).length)
    (h : Reachable [] outcome s) : s = initState 0 := by
  induction h with
  | refl => rfl
  | tail _ hstep ih =>
    cases hstep with
    | acquire i hphase hcount => exact i.elim0
    | finish i hphase => exact i.elim0

/-- Dispatch state after the first k workers, in index order, have each
acquired a slot, completed and recorded their outcome. -/
def seqState (recipients : List String) (outcome : Nat → Bool) (k : Nat) :
    BulkState recipients.length where
  phase := fun i => if i.val < k then WorkerPhase.done else WorkerPhase.notStarted
  sent := (((List.finRange recipients.length).take k).filter
    fun i => outcome i.val).map recipients.get
  failed := (((List.finRange recipients.length).take k).filter
    fun i => ! outcome i.val).map recipients.get
  calls := k

lemma seqState_zero (recipients : List String) (outcome : Nat → Bool) :
    seqState recipients outcome 0 = initState recipients.length := by
  unfold seqState initState
  congr 1

lemma seqState_inFlight (recipients : List String) (outcome : Nat → Bool) (k : Nat) :
    inFlightCount (seqState recipients outcome k) = 0 := by
  unfold inFlightCount
  rw [Finset.card_eq_zero]
  apply Finset.filter_false_of_mem
  intro i _
  unfold seqState
  by_cases hi : i.val < k <;> simp [hi]

lemma seqState_step (recipients : List String) (outcome : Nat → Bool) (k : Nat)
    (hk : k < recipients.length) :
    finishState recipients outcome
        (acquireState (seqState recipients outcome k) ⟨k, hk⟩) ⟨k, hk⟩ =
      seqState recipients outcome (k + 1) := by
  have htake : (List.finRange recipients.length).take (k + 1) =
      (List.finRange recipients.length).take k ++ [⟨k, hk⟩] := by
    rw [List.take_succ]
    congr 1
    rw [List.getElem?_eq_getElem (by simpa using hk)]
    simp [List.getElem_finRange, Fin.cast_mk]
  unfold finishState acquireState seqState
  congr 1
  · funext i
    simp only [Function.update_apply]
    by_cases hi : i = ⟨k, hk⟩
    · subst hi
      simp
    · have hiv : i.val ≠ k := fun hc => hi (Fin.ext hc)
      have : (i.val < k + 1) = (i.val < k) := by
        apply propext
        omega
      simp [hi, this]
  · rw [htake, List.filter_append, List.map_append]
    by_cases hout : outcome k
    · simp [hout]
    · simp [hout]
  · rw [htake, List.filter_append, List.map_append]
    by_cases hout : outcome k
    · simp [hout]
    · simp [hout]

lemma seqState_reachable (recipients : List String) (outcome : Nat → Bool)
    (k : Nat) (hk : k ≤ recipients.length) :
    Reachable recipients outcome (seqState recipients outcome k) := by
  induction k with
  | zero =>
    rw [seqState_zero]
  | succ k ih =>
    have hk' : k < recipients.length := Nat.lt_of_succ_le hk
    have h1 := ih (Nat.le_of_lt hk')
    have hs1 : BulkStep recipients outcome (seqState recipients outcome k)
        (acquireState (seqState recipients outcome k) ⟨k, hk'⟩) := by
      apply BulkStep.acquire
      · unfold seqState
        simp
      · rw [seqState_inFlight]
        unfold semaphoreCapacity
        omega
    have hs2 : BulkStep recipients outcome
        (acquireState (seqState recipients outcome k) ⟨k, hk'⟩)
        (finishState recipients outcome
          (acquireState (seqState recipients outcome k) ⟨k, hk'⟩) ⟨k, hk'⟩) := by
      apply BulkStep.finish
      unfold acquireState
      simp [Function.update_same]
    have h2 := Relation.ReflTransGen.tail (Relation.ReflTransGen.tail h1 hs1) hs2
    rwa [seqState_step recipients outcome k hk'] at h2

lemma seqState_finished (recipients : List String) (outcome : Nat → Bool) :
    Finished (seqState recipients outcome recipients.length) := by
  intro i
  unfold seqState
  simp [i.isLt]

/-- One complete sequential run of the dispatcher, used to exhibit
concrete executions. -/
lemma seq_sendBulk (recipients : List String) (outcome : Nat → Bool) :
    SendBulkSMS recipients outcome
      (mkResponse recipients (seqState recipients outcome recipients.length)) :=
  ⟨seqState recipients outcome recipients.length,
    seqState_reachable recipients outcome recipients.length le_rfl,
    seqState_finished recipients outcome, rfl⟩

/-- Example configuration used to exhibit concrete handler runs. -/
def exampleConfig : TwilioConfig :=
  { accountSID := "sid", authToken := "token", fromPhone := "+10000000000" }

/-- Example provider that accepts every message. -/
def exampleClient : Provider := fun _ _ _ => Except.ok ()

/-- Example provider that rejects every message. -/
def exampleFailingClient : Provider := fun _ _ _ => Except.error "boom"

/-- Example bulk request body with two recipients. -/
def exampleBulkBody : Json :=
  Json.obj [("to", Json.arr [Json.str "a", Json.str "b"]), ("message", Json.str "hola")]

/-- C1: for every dispatch request and every assignment of per recipient
provider outcomes, any response the bulk dispatcher can return satisfies
len sent + len failed = total. A response exists in SendBulkSMS only for
dispatch states in which every worker has completed, mirroring the
wg.Wait barrier before the return, so nothing incomplete is observable
to the caller. -/
theorem sendBulkSMS_sent_failed_total (recipients : List String) (outcome : Nat → Bool)
    (resp : SMSResponse) (h : SendBulkSMS recipients outcome resp) :
    resp.sent.length + resp.failed.length = resp.total := by
  obtain ⟨s, hr, hf, rfl⟩ := h
  exact finished_count recipients outcome s hr hf

/-- Concrete instance of the C1 theorem on a two recipient dispatch with
one failing send. -/
theorem sendBulkSMS_sent_failed_total_witness :
    SendBulkSMS ["a", "b"] (fun j => j == 0)
      { sent := ["a"], failed := ["b"], total := 2 } ∧
    (["a"] : List String).length + (["b"] : List String).length = 2 := by
  have h : SendBulkSMS ["a", "b"] (fun j => j == 0)
      { sent := ["a"], failed := ["b"], total := 2 } :=
    seq_sendBulk ["a", "b"] (fun j => j == 0)
  exact ⟨h, sendBulkSMS_sent_failed_total ["a", "b"] (fun j => j == 0) _ h⟩

/-- C2: in every state any run of the dispatcher can reach, at most
semaphoreCapacity = 10 workers hold a semaphore slot, whatever the batch
size; and a completing worker always gives its slot back, for a failing
provider call just as for a successful one. -/
theorem sendBulkSMS_bounded_concurrency (recipients : List String) (outcome : Nat → Bool) :
    (∀ s, Reachable recipients outcome s → inFlightCount s ≤ semaphoreCapacity) ∧
    (∀ (s : BulkState recipients.length) (i : Fin recipients.length),
      s.phase i = WorkerPhase.inFlight →
      inFlightCount (finishState recipients outcome s i) + 1 = inFlightCount s) := by
  constructor
  · intro s h
    exact (reachable_inv recipients outcome s h).2.2.1
  · intro s i hphase
    unfold inFlightCount
    rw [show (finishState recipients outcome s i).phase =
        Function.update s.phase i WorkerPhase.done from rfl]
    rw [filter_update_eq_erase s.phase i WorkerPhase.inFlight WorkerPhase.done (by simp)]
    exact Finset.card_erase_add_one (by simp [hphase])

/-- Concrete instance of the C2 theorem: the initial state holds no
slots, and a worker whose send fails still releases its slot. -/
theorem sendBulkSMS_bounded_concurrency_witness :
    inFlightCount (initState (["a"] : List String).length) ≤ semaphoreCapacity ∧
    inFlightCount (finishState ["a"] (fun _ => false)
        { phase := fun _ => WorkerPhase.inFlight, sent := [], failed := [], calls := 0 }
        ⟨0, by decide⟩) + 1 =
      inFlightCount
        ({ phase := fun _ => WorkerPhase.inFlight, sent := [], failed := [], calls := 0 } :
          BulkState (["a"] : List String).length) := by
  constructor
  · exact (sendBulkSMS_bounded_concurrency ["a"] (fun _ => false)).1 _
      Relation.ReflTransGen.refl
  · exact (sendBulkSMS_bounded_concurrency ["a"] (fun _ => false)).2 _ ⟨0, by decide⟩ rfl

/-- C3: when the provider fails exactly for recipient X and succeeds for
every other recipient, every completed dispatch puts X in failed and
every other recipient in sent, for every completion order. -/
theorem sendBulkSMS_single_failure (recipients : List String) (outcome : Nat → Bool)
    (X : String) (hmem : X ∈ recipients)
    (hout : ∀ i : Fin recipients.length, outcome i.val = false ↔ recipients.get i = X)
    (resp : SMSResponse) (h : SendBulkSMS recipients outcome resp) :
    X ∈ resp.failed ∧ X ∉ resp.sent ∧
      ∀ y ∈ recipients, y ≠ X → y ∈ resp.sent ∧ y ∉ resp.failed := by
  obtain ⟨s, hr, hf, rfl⟩ := h
  have hsent := finished_sent_multiset recipients outcome s hr hf
  have hfailed := finished_failed_multiset recipients outcome s hr hf
  have hsentMem : ∀ y : String, y ∈ s.sent ↔
      ∃ i : Fin recipients.length, outcome i.val = true ∧ recipients.get i = y := by
    intro y
    rw [← Multiset.mem_coe, hsent]
    simp only [Multiset.mem_map, Finset.mem_val, Finset.mem_filter, Finset.mem_univ,
      true_and]
  have hfailedMem : ∀ y : String, y ∈ s.failed ↔
      ∃ i : Fin recipients.length, outcome i.val = false ∧ recipients.get i = y := by
    intro y
    rw [← Multiset.mem_coe, hfailed]
    simp only [Multiset.mem_map, Finset.mem_val, Finset.mem_filter, Finset.mem_univ,
      true_and]
  obtain ⟨iX, hiX⟩ := List.mem_iff_get.mp hmem
  refine ⟨?_, ?_, ?_⟩
  · exact (hfailedMem X).mpr ⟨iX, (hout iX).mpr hiX, hiX⟩
  · intro hXs
    obtain ⟨i, hi, hg⟩ := (hsentMem X).mp hXs
    have := (hout i).mpr hg
    rw [this] at hi
    cases hi
  · intro y hy hyX
    obtain ⟨iy, hiy⟩ := List.mem_iff_get.mp hy
    have houty : outcome iy.val = true := by
      cases hcase : outcome iy.val with
      | false =>
        have hyx : y = X := by rw [← hiy]; exact (hout iy).mp hcase
        exact absurd hyx hyX
      | true => rfl
    refine ⟨(hsentMem y).mpr ⟨iy, houty, hiy⟩, ?_⟩
    intro hyf
    obtain ⟨j, hj, hgj⟩ := (hfailedMem y).mp hyf
    have hyx : y = X := by rw [← hgj]; exact (hout j).mp hj
    exact hyX hyx

/-- Concrete instance of the C3 theorem: provider failing exactly for b
among a, b, c. -/
theorem sendBulkSMS_single_failure_witness :
    "b" ∈ (["b"] : List String) ∧ "b" ∉ (["a", "c"] : List String) ∧
      ∀ y ∈ (["a", "b", "c"] : List String), y ≠ "b" →
        y ∈ (["a", "c"] : List String) ∧ y ∉ (["b"] : List String) := by
  have h : SendBulkSMS ["a", "b", "c"] (fun j => j != 1)
      { sent := ["a", "c"], failed := ["b"], total := 3 } :=
    seq_sendBulk ["a", "b", "c"] (fun j => j != 1)
  exact sendBulkSMS_single_failure ["a", "b", "c"] (fun j => j != 1) "b"
    (by decide) (by decide) _ h

/-- C4: total equals the length of the recipient list exactly as
supplied, duplicates included, and a completed dispatch has made exactly
one provider call per occurrence, so duplicates are independent send
attempts. -/
theorem sendBulkSMS_total (recipients : List String) (outcome : Nat → Bool) :
    (∀ resp, SendBulkSMS recipients outcome resp → resp.total = recipients.length) ∧
    (∀ s, Reachable recipients outcome s → Finished s → s.calls = recipients.length) := by
  constructor
  · intro resp h
    obtain ⟨s, hr, hf, rfl⟩ := h
    rfl
  · intro s hr hf
    exact finished_calls recipients outcome s hr hf

/-- Concrete instance of the C4 theorem on a batch with a duplicated
recipient: both occurrences are dispatched and recorded. -/
theorem sendBulkSMS_total_witness :
    SendBulkSMS ["a", "a"] (fun _ => true)
      { sent := ["a", "a"], failed := [], total := 2 } ∧
    ({ sent := ["a", "a"], failed := [], total := 2 } : SMSResponse).total =
      (["a", "a"] : List String).length ∧
    (seqState ["a", "a"] (fun _ => true) 2).calls = (["a", "a"] : List String).length := by
  have h : SendBulkSMS ["a", "a"] (fun _ => true)
      { sent := ["a", "a"], failed := [], total := 2 } :=
    seq_sendBulk ["a", "a"] (fun _ => true)
  refine ⟨h, (sendBulkSMS_total ["a", "a"] (fun _ => true)).1 _ h, ?_⟩
  exact (sendBulkSMS_total ["a", "a"] (fun _ => true)).2 _
    (seqState_reachable ["a", "a"] (fun _ => true) 2 (by decide))
    (seqState_finished ["a", "a"] (fun _ => true))

/-- C5: on the empty recipient list the dispatcher can only sit in its
initial state, so it returns sent [] failed [] total 0 and never invokes
the provider. -/
theorem sendBulkSMS_empty (outcome : Nat → Bool) :
    (∀ s, Reachable ([] : List String) outcome s → s = initState 0 ∧ s.calls = 0) ∧
    (∀ resp, SendBulkSMS ([] : List String) outcome resp →
      resp = { sent := [], failed := [], total := 0 }) := by
  constructor
  · intro s h
    have hs := reachable_nil outcome s h
    refine ⟨hs, ?_⟩
    rw [hs]
    rfl
  · intro resp h
    obtain ⟨s, hr, hf, rfl⟩ := h
    rw [reachable_nil outcome s hr]
    rfl

/-- Concrete instance of the C5 theorem at the initial state of the
empty dispatch. -/
theorem sendBulkSMS_empty_witness :
    (initState 0 = initState 0 ∧ (initState 0).calls = 0) ∧
    ({ sent := [], failed := [], total := 0 } : SMSResponse) =
      { sent := [], failed := [], total := 0 } := by
  constructor
  · exact (sendBulkSMS_empty (fun _ => true)).1 (initState 0) Relation.ReflTransGen.refl
  · exact (sendBulkSMS_empty (fun _ => true)).2 { sent := [], failed := [], total := 0 }
      ⟨initState 0, Relation.ReflTransGen.refl, fun i => i.elim0, rfl⟩

/-- C9: the multiset union of sent and failed equals the multiset of
input recipients, and each occurrence is recorded exactly once, in sent
exactly when its provider call succeeded and in failed otherwise. -/
theorem sendBulkSMS_partition (recipients : List String) (outcome : Nat → Bool)
    (resp : SMSResponse) (h : SendBulkSMS recipients outcome resp) :
    (resp.sent : Multiset String) + (resp.failed : Multiset String) =
      (recipients : Multiset String) ∧
    (resp.sent : Multiset String) =
      (Finset.univ.filter fun i : Fin recipients.length => outcome i.val = true).val.map
        recipients.get ∧
    (resp.failed : Multiset String) =
      (Finset.univ.filter fun i : Fin recipients.length => outcome i.val = false).val.map
        recipients.get := by
  obtain ⟨s, hr, hf, rfl⟩ := h
  exact ⟨finished_partition recipients outcome s hr hf,
    finished_sent_multiset recipients outcome s hr hf,
    finished_failed_multiset recipients outcome s hr hf⟩

/-- Concrete instance of the C9 theorem: sent and failed repartition the
input list a, b, c. -/
theorem sendBulkSMS_partition_witness :
    ((["a", "c"] : List String) : Multiset String) +
      ((["b"] : List String) : Multiset String) =
      ((["a", "b", "c"] : List String) : Multiset String) := by
  have h : SendBulkSMS ["a", "b", "c"] (fun j => j != 1)
      { sent := ["a", "c"], failed := ["b"], total := 3 } :=
    seq_sendBulk ["a", "b", "c"] (fun j => j != 1)
  exact (sendBulkSMS_partition ["a", "b", "c"] (fun j => j != 1) _ h).1

/-- C7: sendSMS invokes the provider exactly once, succeeds exactly when
the provider succeeds, and surfaces every provider error through the one
uniform wrapping, without distinguishing error subtypes. -/
theorem sendSMS_exactly_once (cfg : TwilioConfig) (client : Provider)
    («to» message : String) :
    (sendSMS cfg client «to» message).2 = 1 ∧
    (client cfg.fromPhone «to» message = Except.ok () →
      (sendSMS cfg client «to» message).1 = Except.ok ()) ∧
    (∀ err, client cfg.fromPhone «to» message = Except.error err →
      (sendSMS cfg client «to» message).1 =
        Except.error ("error al enviar SMS: " ++ err)) := by
  refine ⟨?_, ?_, ?_⟩
  · unfold sendSMS
    cases client cfg.fromPhone «to» message <;> rfl
  · intro hok
    unfold sendSMS
    rw [hok]
  · intro err herr
    unfold sendSMS
    rw [herr]

/-- Concrete instance of the C7 theorem on a provider that always
fails. -/
theorem sendSMS_exactly_once_witness :
    (sendSMS exampleConfig exampleFailingClient "a" "m").2 = 1 ∧
    (sendSMS exampleConfig exampleFailingClient "a" "m").1 =
      Except.error ("error al enviar SMS: " ++ "boom") := by
  refine ⟨(sendSMS_exactly_once exampleConfig exampleFailingClient "a" "m").1, ?_⟩
  exact (sendSMS_exactly_once exampleConfig exampleFailingClient "a" "m").2.2 "boom" rfl

/-- C8: on either send endpoint a non POST request is answered 405 and a
POST whose body does not decode is answered 400, in all cases before any
dispatch logic and with zero provider calls. -/
theorem handlers_reject_before_dispatch (cfg : TwilioConfig) (client : Provider)
    (outcome : Nat → Bool) (method : Method) (body : Option Json) :
    (method ≠ Method.post →
      sendSMSHandler cfg client method body =
        ({ status := 405, body := ResponseBody.error "Método no permitido" }, 0)) ∧
    (method = Method.post → body.bind decodeSingleSMSRequest = none →
      sendSMSHandler cfg client method body =
        ({ status := 400, body := ResponseBody.error "Request inválido" }, 0)) ∧
    (∀ r, method ≠ Method.post → SendBulkSMSHandler outcome method body r →
      r = ({ status := 405, body := ResponseBody.error "Método no permitido" }, 0)) ∧
    (∀ r, method = Method.post → body.bind decodeSMSRequest = none →
      SendBulkSMSHandler outcome method body r →
      r = ({ status := 400, body := ResponseBody.error "Request inválido" }, 0)) := by
  refine ⟨?_, ?_, ?_, ?_⟩
  · intro hm
    unfold sendSMSHandler
    rw [if_pos hm]
  · intro hm hd
    unfold sendSMSHandler
    rw [if_neg (by simp [hm]), hd]
  · intro r hm hr
    cases hr with
    | methodNotAllowed h => rfl
    | badRequest h hd => exact absurd h hm
    | ok req s h hd hre hf => exact absurd h hm
  · intro r hm hd hr
    cases hr with
    | methodNotAllowed h => exact absurd hm h
    | badRequest h hd2 => rfl
    | ok req s h hd2 hre hf => rw [hd] at hd2; cases hd2

/-- Concrete instance of the C8 theorem: a GET and a syntactically
invalid body on both endpoints. -/
theorem handlers_reject_before_dispatch_witness :
    sendSMSHandler exampleConfig exampleClient Method.get none =
      ({ status := 405, body := ResponseBody.error "Método no permitido" }, 0) ∧
    sendSMSHandler exampleConfig exampleClient Method.post none =
      ({ status := 400, body := ResponseBody.error "Request inválido" }, 0) ∧
    (({ status := 405, body := ResponseBody.error "Método no permitido" }, 0) :
        HttpResponse × Nat) =
      ({ status := 405, body := ResponseBody.error "Método no permitido" }, 0) := by
  refine ⟨?_, ?_, ?_⟩
  · exact (handlers_reject_before_dispatch exampleConfig exampleClient (fun _ => true)
      Method.get none).1 (by decide)
  · exact (handlers_reject_before_dispatch exampleConfig exampleClient (fun _ => true)
      Method.post none).2.1 rfl rfl
  · exact (handlers_reject_before_dispatch exampleConfig exampleClient (fun _ => true)
      Method.get none).2.2.1 _ (by decide)
      (SendBulkSMSHandler.methodNotAllowed (by decide))

/-- C6: a POST to the bulk endpoint whose body decodes is always
answered 200 with a completed dispatch result, whatever the individual
provider outcomes; every recipient is attempted (one provider call per
occurrence), so one failing send neither aborts the batch nor surfaces
as a bulk level error. -/
theorem sendBulkSMSHandler_always_200 (outcome : Nat → Bool) (method : Method)
    (body : Option Json) (req : SMSRequest) (r : HttpResponse × Nat)
    (hm : method = Method.post) (hd : body.bind decodeSMSRequest = some req)
    (h : SendBulkSMSHandler outcome method body r) :
    r.1.status = 200 ∧ r.2 = req.«to».length ∧
      ∃ resp, SendBulkSMS req.«to» outcome resp ∧ r.1.body = ResponseBody.bulk resp := by
  cases h with
  | methodNotAllowed hpost => exact absurd hm hpost
  | badRequest hpost hnone => rw [hd] at hnone; cases hnone
  | ok req2 s hpost hsome hre hf =>
    rw [hd] at hsome
    injection hsome with hreq
    subst hreq
    exact ⟨rfl, finished_calls req.«to» outcome s hre hf,
      mkResponse req.«to» s, ⟨s, hre, hf, rfl⟩, rfl⟩

/-- Concrete instance of the C6 theorem: a two recipient POST with one
failing send still gets 200 and two provider calls. -/
theorem sendBulkSMSHandler_always_200_witness :
    (({ status := 200,
        body := ResponseBody.bulk { sent := ["a"], failed := ["b"], total := 2 } }, 2) :
        HttpResponse × Nat).1.status = 200 ∧
    (({ status := 200,
        body := ResponseBody.bulk { sent := ["a"], failed := ["b"], total := 2 } }, 2) :
        HttpResponse × Nat).2 = 2 := by
  have hh : SendBulkSMSHandler (fun j => j == 0) Method.post (some exampleBulkBody)
      ({ status := 200,
         body := ResponseBody.bulk { sent := ["a"], failed := ["b"], total := 2 } }, 2) :=
    SendBulkSMSHandler.ok { «to» := ["a", "b"], message := "hola" }
      (seqState ["a", "b"] (fun j => j == 0) 2) rfl rfl
      (seqState_reachable ["a", "b"] (fun j => j == 0) 2 (by decide))
      (seqState_finished ["a", "b"] (fun j => j == 0))
  have hc := sendBulkSMSHandler_always_200 (fun j => j == 0) Method.post
    (some exampleBulkBody) { «to» := ["a", "b"], message := "hola" } _ rfl rfl hh
  exact ⟨hc.1, hc.2.1⟩

end SmsMasivo
